import Mathlib

/-!
# Verification of the `stream_tagger` tag store and render engine

This file shallowly embeds the core of the `stream_tagger` repository:

* `src/stream_tagger/tags.py` — the `TagDatabase` class (an SQLite-backed
  tag store).  The SQLite table is modelled as a `List Row`; each SQL
  statement is modelled by the corresponding pure list transformation.
* `src/stream_tagger/tag_command.py` — the `Tagging.dump_tags` renderer
  (header line, the per-style bodies and the hierarchy tree-drawing rules)
  together with the helpers `td_to_str`, `timestamp_link` and the
  `adjusted_stars` star-compression lambda.
* `src/stream_tagger/utils.py` — the `PersistentDict` / `PersistentSetDict`
  cached stores; the SQLite table and the in-memory cache are modelled as
  association lists, and the configured `dump_v`/`load_v` serializers and
  the `repr`/`literal_eval` key round-trip are abstract function parameters.

Python strings are modelled as `List Char`, Python `int` as `ℤ`, Python
floats as `ℚ` (exact rational arithmetic; float rounding noise is out of
scope), and Python exceptions as an `Except PyErr` result.
-/

/-- The Python exceptions the embedded code can raise. -/
inductive PyErr where
  | valueError
  | typeError
  | keyError
  | zeroDivisionError
  /-- `ValueError: math domain error` raised by `math.log` on a
  non-positive argument. -/
  | mathDomainError
  | integrityError
  deriving DecidableEq, Repr

/-- Python's `round` on an exact rational value: round half to even
(banker's rounding), as CPython's `round` does. -/
def pyRound (q : ℚ) : ℤ :=
  let f : ℤ := ⌊q⌋
  let r : ℚ := q - f
  if r < 1 / 2 then f
  else if 1 / 2 < r then f + 1
  else if f % 2 = 0 then f else f + 1

/-- Python's floor division `//` on integers. -/
def pyFloorDiv (a b : ℤ) : ℤ := Int.fdiv a b

/-- Python's modulo `%` on integers (result has the sign of the divisor). -/
def pyMod (a b : ℤ) : ℤ := Int.emod a b

namespace TagDatabase

/-- One row of the `tags` SQLite table created by
`TagDatabase._create_table` in `src/stream_tagger/tags.py`:
`(msg_id INT PRIMARY KEY, guild INT, timestamp_ INT, message TEXT,
votes INT, author INT, hidden BOOL, hierarchy INT)`. -/
structure Row where
  msg_id : ℤ
  guild : ℤ
  timestamp : ℤ
  message : List Char
  votes : ℤ
  author : ℤ
  hidden : Bool
  hierarchy : ℤ
  deriving DecidableEq, Repr

/-- The table contents, in insertion order. -/
abbrev Table := List Row

/-- The `tag_t` namedtuple `(ts, text, vote, msg_id, hier)` returned by
`TagDatabase.get_tags`. -/
structure Tag_t where
  ts : ℤ
  text : List Char
  vote : ℤ
  msg_id : ℤ
  hier : ℤ
  deriving DecidableEq, Repr

/-- The projection done by the renderer's
`SELECT timestamp_, message, votes, msg_id, hierarchy`. -/
def Row.toTag (r : Row) : Tag_t :=
  ⟨r.timestamp, r.message, r.votes, r.msg_id, r.hierarchy⟩

/-- `TagDatabase.tag`: `INSERT INTO tags VALUES (?, ?, ?, ?, 0, ?, ?, ?)`.
The `msg_id INT PRIMARY KEY` constraint makes the insert fail with an
`IntegrityError` when the id already exists; `votes` starts at `0` and
`time` is truncated with `int(time)` (a no-op on our integer model). -/
def tag (t : Table) (msg_id guild_id : ℤ) (time : ℤ) (text : List Char)
    (author_id : ℤ) (hidden : Bool := false) (hierarchy : ℤ := 0) :
    Except PyErr Table :=
  if t.any (fun r => r.msg_id == msg_id) then .error .integrityError
  else .ok (t ++ [⟨msg_id, guild_id, time, text, 0, author_id, hidden, hierarchy⟩])

/-- `TagDatabase.update_text`:
`UPDATE tags SET message=?, hierarchy=? WHERE ?=msg_id`.
A SQL UPDATE whose WHERE clause matches no row simply affects zero rows;
no exception is raised. -/
def update_text (t : Table) (msg_id : ℤ) (text : List Char) (h : ℤ) :
    Except PyErr Table :=
  .ok (t.map fun r =>
    if r.msg_id = msg_id then { r with message := text, hierarchy := h } else r)

/-- `TagDatabase.update_time`:
`UPDATE tags SET timestamp_=? WHERE ?=msg_id` (with `time = int(time)`).
Matching zero rows raises nothing. -/
def update_time (t : Table) (msg_id : ℤ) (time : ℤ) : Except PyErr Table :=
  .ok (t.map fun r =>
    if r.msg_id = msg_id then { r with timestamp := time } else r)

/-- `TagDatabase.increment_vote`:
`UPDATE tags SET votes = votes+? WHERE msg_id = ?`.
Matching zero rows raises nothing. -/
def increment_vote (t : Table) (msg_id : ℤ) (add : ℤ := 1) :
    Except PyErr Table :=
  .ok (t.map fun r =>
    if r.msg_id = msg_id then { r with votes := r.votes + add } else r)

/-- `TagDatabase.remove`: `DELETE FROM tags WHERE msg_id = ?`.
Matching zero rows raises nothing. -/
def remove (t : Table) (msg_id : ℤ) : Except PyErr Table :=
  .ok (t.filter fun r => ¬ r.msg_id = msg_id)

/-- `TagDatabase.__contains__`:
`SELECT * FROM tags WHERE msg_id=?` is non-empty. -/
def contains (t : Table) (msg_id : ℤ) : Bool :=
  t.any fun r => r.msg_id == msg_id

/-- The `order` argument of `get_tags`, a `Literal["ASC", "DESC"]`. -/
inductive SqlOrder where
  | ASC
  | DESC
  deriving DecidableEq, Repr

/-- Truthiness of the Python value `author_id : int | None`:
`None` and `0` are falsy, every other integer is truthy.  `get_tags`
branches on `if author_id:`. -/
def authorTruthy : Option ℤ → Bool
  | none => false
  | some a => a != 0

/-- The row filter of the `get_tags` query *with* the author clause:
`guild=? AND timestamp_ BETWEEN ? AND ? AND author=?
AND (hidden IS FALSE OR hidden=?)`. -/
def rowMatchA (guild_id start end_ author : ℤ) (show_hidden : Bool) (r : Row) : Bool :=
  r.guild == guild_id && (start ≤ r.timestamp && r.timestamp ≤ end_) &&
    r.author == author && (r.hidden == false || r.hidden == show_hidden)

/-- The row filter of the `get_tags` query *without* the author clause. -/
def rowMatch (guild_id start end_ : ℤ) (show_hidden : Bool) (r : Row) : Bool :=
  r.guild == guild_id && (start ≤ r.timestamp && r.timestamp ≤ end_) &&
    (r.hidden == false || r.hidden == show_hidden)

/-- The comparison used by `ORDER BY timestamp_ {order}`. -/
def tsLE : SqlOrder → Row → Row → Prop
  | .ASC, a, b => a.timestamp ≤ b.timestamp
  | .DESC, a, b => b.timestamp ≤ a.timestamp

instance : ∀ o, DecidableRel (tsLE o)
  | .ASC, a, b => inferInstanceAs (Decidable (a.timestamp ≤ b.timestamp))
  | .DESC, a, b => inferInstanceAs (Decidable (b.timestamp ≤ a.timestamp))

/-- `TagDatabase.get_tags`.  `start, end = int(start), int(end)` keeps our
integer bounds; the query filters rows, orders them by `timestamp_`
(`insertionSort` is a stable sort, matching SQLite's deterministic
ordering up to timestamp ties), applies `LIMIT {limit}` and projects
`timestamp_, message, votes, msg_id, hierarchy`.  The two SQL branches of
the source (`if author_id:`) are kept as written. -/
def get_tags (t : Table) (guild_id : ℤ) (start end_ : ℤ)
    (author_id : Option ℤ := none) (limit : ℕ := 1000)
    (show_hidden : Bool := false) (order : SqlOrder := .ASC) : List Tag_t :=
  if authorTruthy author_id then
    ((((t.filter
        (rowMatchA guild_id start end_ (author_id.getD 0) show_hidden)).insertionSort
          (tsLE order)).take limit).map Row.toTag)
  else
    ((((t.filter
        (rowMatch guild_id start end_ show_hidden)).insertionSort
          (tsLE order)).take limit).map Row.toTag)

end TagDatabase

namespace Render

open TagDatabase

/-- Python `str(n)` for an integer. -/
def intToChars (n : ℤ) : List Char := (toString n).toList

/-- Python `str(n)` for a natural number. -/
def natToChars (n : ℕ) : List Char := (toString n).toList

/-- `td_to_str` from `src/stream_tagger/tag_command.py`:
`hours = int(t // 3600)`, `minutes = int((t // 60) % 60)`,
`seconds = int(t % 60)`, then `"{minutes}m{seconds}s"` (`classic`) or
`"{minutes}:{seconds}"` (`yt`), prefixed by the hours when non-zero. -/
def tdToStr (t : ℤ) (style : String := "classic") : List Char :=
  let hours := pyFloorDiv t 3600
  let minutes := pyMod (pyFloorDiv t 60) 60
  let seconds := pyMod t 60
  let res :=
    if style = "yt" then intToChars minutes ++ ':' :: intToChars seconds
    else intToChars minutes ++ 'm' :: intToChars seconds ++ ['s']
  if hours ≠ 0 then
    if style = "yt" then intToChars hours ++ ':' :: res
    else intToChars hours ++ 'h' :: res
  else res

/-- `timestamp_link`: drop everything from the first `#`, then append
`&t=<int(t)>s` if the remaining URL already contains a `?`, else
`?t=<int(t)>s`. -/
def timestampLink (stream_url : List Char) (t : ℤ) : List Char :=
  let u := stream_url.takeWhile (· ≠ '#')
  if '?' ∈ u then u ++ '&' :: 't' :: '=' :: intToChars t ++ ['s']
  else u ++ '?' :: 't' :: '=' :: intToChars t ++ ['s']

/-- Truthiness of the Python value `stream_url : str | False | None`:
`None`, `False` and the empty string are falsy. -/
def urlTruthy : Option (List Char) → Bool
  | none => false
  | some u => u != []

/-- Fuel-based binary logarithm: `natLog2F fuel n` is `⌊log2 n⌋` whenever
`1 ≤ n ≤ fuel` (structural recursion so that the kernel can evaluate it). -/
def natLog2F : ℕ → ℕ → ℕ
  | 0, _ => 0
  | fuel + 1, n => if n ≤ 1 then 0 else natLog2F fuel (n / 2) + 1

/-- `round(log2 k)` for `k ≥ 1`, computed by integer arithmetic:
`round(log2 k) = ⌊log2 k + 1/2⌋ = ⌊log2 (2·k²) / 2⌋`.  The agreement with
the real-valued `round (Real.logb 2 k)` is proved in
`roundLog2_eq_round_logb` below. -/
def roundLog2 (k : ℕ) : ℕ := natLog2F (2 * k ^ 2) (2 * k ^ 2) / 2

/-- The `adjusted_stars` lambda of `Tagging.dump_tags`:
`round(math.log(round(v / (avg_votes + 1)) + 1, 2))`.
Python raises `ZeroDivisionError` when `avg_votes + 1 == 0` and
`ValueError: math domain error` when the argument of `math.log` is not
positive; there is no flooring of the star count at `0`. -/
def adjusted_stars (avg : ℚ) (v : ℤ) : Except PyErr ℤ :=
  if avg + 1 = 0 then .error .zeroDivisionError
  else
    let k : ℤ := pyRound ((v : ℚ) / (avg + 1)) + 1
    if k ≤ 0 then .error .mathDomainError
    else .ok (roundLog2 k.toNat)

/-- `avg_votes = sum(tag.vote for tag in tags) / len(tags)`
(a `ZeroDivisionError` on an empty list, handled at the call site). -/
def avgVotes (tags : List Tag_t) : ℚ :=
  ((tags.map Tag_t.vote).sum : ℚ) / (tags.length : ℚ)

/-- The nine-branch tree-mark ladder of the `alternative`/`yt` loop in
`Tagging.dump_tags` (the `if curr_ind == prev_ind <= next_ind: ...` chain).
The final `else` logs `"Unhandled hierarchy case"` and appends nothing. -/
def treeGlyphs (prev curr next : ℤ) : List Char :=
  if curr = prev ∧ prev ≤ next then ['├']
  else if prev = curr then ['└']
  else if prev > curr ∧ curr = next then ['├']
  else if prev > curr then ['└']
  else if curr = 1 ∧ curr - prev = 1 ∧ curr = next then ['└', '├']
  else if prev < curr ∧ curr = next then
    '└' :: List.replicate (curr - prev - 1).toNat '─' ++ ['┬']
  else if curr = 1 ∧ prev = 0 ∧ next ≠ 1 then ['└', '└']
  else if prev < curr then List.replicate (curr - prev).toNat '─' ++ ['─']
  else []

/-- The per-tag body text of the `alternative` style (respectively the
`yt`/`yt-text` styles) before the tree decoration is attached. -/
def altBody (style : String) (stream_url : Option (List Char))
    (url_is_perm : Bool) (relative_ts : ℤ) (text : List Char)
    (adj_stars : ℤ) : List Char :=
  if style = "alternative" then
    (if urlTruthy stream_url && url_is_perm then
      '[' :: tdToStr relative_ts ++ ']' :: '(' ::
        timestampLink (stream_url.getD []) relative_ts ++ [')', ' ', '|', ' ']
    else ' ' :: '`' :: tdToStr relative_ts ++ ['`', ' ', '|', ' ']) ++
    text.filter (· ≠ '`') ++
    (if adj_stars ≠ 0 then
      ' ' :: '(' :: List.replicate adj_stars.toNat '⭐' ++ [')']
    else [])
  else
    tdToStr relative_ts "yt" ++ ' ' :: text

/-- Attaching the tree decoration to one body line:
`space_indent = curr_ind - max(curr_ind - prev_ind, 0)` braille-blank
glyphs, the branch marks, a space when the decoration is longer than one
glyph, then `line = line[1:]` and the `"─"`-head fix-up
(`if line[0] == "─": line = "└" + line[1:]`; the `[]` case of the final
match is unreachable because the body is never empty). -/
def altDecorate (prev curr next : ℤ) (body : List Char) : List Char :=
  let si := curr - max (curr - prev) 0
  let pre0 := List.replicate si.toNat '⠀' ++ treeGlyphs prev curr next
  let pre1 := if pre0.length > 1 then pre0 ++ [' '] else pre0
  let line := (pre1 ++ body).drop 1
  match line with
  | [] => []
  | c :: rest => if c = '─' then '└' :: rest else c :: rest

/-- The `alternative`/`yt` loop over `tags_d`, carried out structurally:
the accumulator `prev` plays the role of `tags_d[i].hier` (seeded with the
virtual predecessor `tags[0].hier`), and the virtual successor after the
last tag has level `-1`. -/
def altLines (style : String) (stream_url : Option (List Char))
    (url_is_perm : Bool) (offset start : ℤ) (avg : ℚ) :
    ℤ → List Tag_t → Except PyErr (List (List Char))
  | _, [] => .ok []
  | prev, tg :: rest => do
    let next := match rest with
      | [] => -1
      | t2 :: _ => t2.hier
    let adj ← adjusted_stars avg tg.vote
    let body := altBody style stream_url url_is_perm (tg.ts + offset - start)
      tg.text adj
    let more ← altLines style stream_url url_is_perm offset start avg tg.hier rest
    pure (altDecorate prev tg.hier next body :: more)

/-- The `case "alternative" | "yt" | "yt-text":` branch of
`Tagging.dump_tags`: compute `avg_votes` (a `ZeroDivisionError` on an
empty tag list, unreachable from `dump_tags` which returns early), then
run the decorated-line loop. -/
def renderAlt (style : String) (stream_url : Option (List Char))
    (url_is_perm : Bool) (offset start : ℤ) (tags : List Tag_t) :
    Except PyErr (List (List Char)) :=
  match tags with
  | [] => .error .zeroDivisionError
  | t0 :: _ =>
    altLines style stream_url url_is_perm offset start (avgVotes tags) t0.hier tags

/-- One line of the `classic` style:
`text.replace("`", "")`, the vote count in parentheses when non-zero, and
the relative timestamp (hyperlinked when the URL is truthy and permanent). -/
def classicLine (stream_url : Option (List Char)) (url_is_perm : Bool)
    (offset start : ℤ) (tg : Tag_t) : List Char :=
  let relative_ts := tg.ts + offset - start
  tg.text.filter (· ≠ '`') ++
    (if tg.vote ≠ 0 then ' ' :: '(' :: intToChars tg.vote ++ [')'] else []) ++
    (if urlTruthy stream_url && url_is_perm then
      ' ' :: '[' :: tdToStr relative_ts ++ ']' :: '(' ::
        timestampLink (stream_url.getD []) relative_ts ++ [')']
    else ' ' :: tdToStr relative_ts)

/-- One line of the `csv` style:
`relative_ts, "text with doubled quotes", votes, hierarchy`. -/
def csvLine (offset start : ℤ) (tg : Tag_t) : List Char :=
  let relative_ts := tg.ts + offset - start
  let escaped := (tg.text.map fun c =>
    if c = '"' then ['"', '"'] else [c]).flatten
  intToChars relative_ts ++ ',' :: '"' :: escaped ++ '"' :: ',' ::
    intToChars tg.vote ++ ',' :: intToChars tg.hier

/-- Python's `"%.1f"`-style formatting of an exact rational:
round half to even at one decimal digit, keeping the sign of the input
(so `-0.04` renders as `-0.0`). -/
def fmt1f (q : ℚ) : List Char :=
  if q < 0 then
    let m := (pyRound (10 * (-q))).toNat
    '-' :: natToChars (m / 10) ++ '.' :: natToChars (m % 10)
  else
    let m := (pyRound (10 * q)).toNat
    natToChars (m / 10) ++ '.' :: natToChars (m % 10)

/-- The header line
`f"{stream_url or ''} <t:{start}:f> {len(tags)} tags ({tags_per_minute:.1f}/min)"`. -/
def headerText (stream_url : Option (List Char)) (start : ℤ) (count : ℕ)
    (rate : ℚ) : List Char :=
  (if urlTruthy stream_url then stream_url.getD [] else []) ++
    " <t:".toList ++ intToChars start ++ ":f> ".toList ++ natToChars count ++
    " tags (".toList ++ fmt1f rate ++ "/min)".toList

/-- The rendering part of `Tagging.dump_tags` (everything after the tag
fetch): return `None` on an empty tag list, compute
`tags_per_minute = len(tags) / (end - start) * 60` (a `ZeroDivisionError`
when `end == start`), prepend the header for every style except
`yt`/`yt-text`/`csv`, then dispatch on the style string; an unknown style
raises `ValueError`. -/
def dumpRender (stream_url : Option (List Char)) (url_is_perm : Bool)
    (offset start end_ : ℤ) (style : String) (tags : List Tag_t) :
    Except PyErr (Option (List (List Char))) :=
  if tags.length = 0 then .ok none
  else if (end_ : ℚ) - (start : ℚ) = 0 then .error .zeroDivisionError
  else
    let rate : ℚ := (tags.length : ℚ) / ((end_ : ℚ) - (start : ℚ)) * 60
    let header : List (List Char) :=
      if style = "yt" ∨ style = "yt-text" ∨ style = "csv" then []
      else [headerText stream_url start tags.length rate]
    let styled : Except PyErr (List (List Char)) :=
      match style with
      | "classic" => .ok (tags.map (classicLine stream_url url_is_perm offset start))
      | "csv" => .ok (tags.map (csvLine offset start))
      | "info" => .ok []
      | "alternative" | "yt" | "yt-text" =>
        renderAlt style stream_url url_is_perm offset start tags
      | _ => .error .valueError
    do
      let ls ← styled
      pure (some (header ++ ls))

end Render

namespace Persist

/-!
Model of `PersistentDict` / `PersistentSetDict` from
`src/stream_tagger/utils.py`.  The SQLite table and the in-memory cache
dictionary are association lists; the configured serializers `dump_v` /
`load_v` and Python's `repr` / `ast.literal_eval` are abstract function
parameters of each operation.  The time-based cache staleness
(`time.monotonic`) is outside the model; the claims below concern only the
write and delete paths, which never consult staleness.
-/

variable {K V S : Type}

/-- In-memory state of one `PersistentDict`: the durable table rows
`(key_ PRIMARY KEY, value_)` and the `_store` cache. -/
structure PDState (K V S : Type) where
  table : List (List Char × S)
  store : List (K × V)
  deriving DecidableEq

/-- `INSERT OR REPLACE` into a table whose first column is the primary
key. -/
def insertOrReplace [DecidableEq S] (t : List (List Char × S))
    (key : List Char) (val : S) : List (List Char × S) :=
  if t.any (fun p => p.1 == key) then
    t.map fun p => if p.1 = key then (key, val) else p
  else t ++ [(key, val)]

/-- Python dict assignment `d[k] = v`. -/
def dictSet [DecidableEq K] (d : List (K × V)) (k : K) (v : V) : List (K × V) :=
  if d.any (fun p => p.1 == k) then
    d.map fun p => if p.1 = k then (k, v) else p
  else d ++ [(k, v)]

/-- Python `del d[k]`: raises `KeyError` when the key is absent. -/
def dictDel [DecidableEq K] (d : List (K × V)) (k : K) :
    Except PyErr (List (K × V)) :=
  if d.any (fun p => p.1 == k) then .ok (d.filter fun p => ¬ p.1 = k)
  else .error .keyError

/-- `PersistentDict.__setitem__`: first the round-trip validity test
`key == literal_eval(repr(key)) and value == self.load_v(self.dump_v(value))`
(raising `ValueError` before any I/O when it fails), then the durable
`INSERT OR REPLACE` and the cache update `self._store[key] = value`. -/
def setItem [DecidableEq K] [DecidableEq V] [DecidableEq S]
    (dumpV : V → S) (loadV : S → V) (kRepr : K → List Char)
    (kEval : List Char → K) (st : PDState K V S) (k : K) (v : V) :
    Except PyErr (PDState K V S) :=
  if ¬ (kEval (kRepr k) = k ∧ loadV (dumpV v) = v) then .error .valueError
  else .ok
    { table := insertOrReplace st.table (kRepr k) (dumpV v)
      store := dictSet st.store k v }

/-- `PersistentDict.__delitem__`: the durable
`DELETE FROM t WHERE key_ = ?` is issued unconditionally, then
`del self._store[key]` is attempted with a `KeyError` caught and ignored
(`try: ... except KeyError: pass`). -/
def delItem [DecidableEq K] [DecidableEq S] (kRepr : K → List Char)
    (st : PDState K V S) (k : K) : Except PyErr (PDState K V S) :=
  .ok
    { table := st.table.filter fun p => ¬ p.1 = kRepr k
      store :=
        match dictDel st.store k with
        | .ok d => d
        | .error _ => st.store }

/-- In-memory state of one `PersistentSetDict`: durable rows
`(key_0..key_{depth-1}, value_)` with `UNIQUE(keys, value_) ON CONFLICT
REPLACE`, and the `_store` cache mapping key tuples to sets (modelled as
lists without a duplicate under the spent insert discipline). -/
structure PSDState (K V S : Type) where
  table : List (List (List Char) × S)
  store : List (List K × List V)
  deriving DecidableEq

/-- Python `s.add(v)` on a set modelled as a list. -/
def setAdd [DecidableEq V] (s : List V) (v : V) : List V :=
  if s.any (fun x => x == v) then s else s ++ [v]

/-- `store.setdefault(keys, set()).add(value)`. -/
def storeAdd [DecidableEq K] [DecidableEq V] (d : List (List K × List V))
    (ks : List K) (v : V) : List (List K × List V) :=
  if d.any (fun p => p.1 == ks) then
    d.map fun p => if p.1 = ks then (ks, setAdd p.2 v) else p
  else d ++ [(ks, setAdd [] v)]

/-- `PersistentSetDict.add`: first the round-trip validity test
(`ValueError`), then the depth check (`TypeError`), then the durable
insert (the `UNIQUE ... ON CONFLICT REPLACE` constraint turns a duplicate
`(keys, value)` row into a replace) and the cache update. -/
def psdAdd [DecidableEq K] [DecidableEq V] [DecidableEq S]
    (depth : ℕ) (dumpV : V → S) (loadV : S → V) (kRepr : K → List Char)
    (kEval : List Char → K) (st : PSDState K V S) (ks : List K) (v : V) :
    Except PyErr (PSDState K V S) :=
  if ¬ ((∀ k ∈ ks, kEval (kRepr k) = k) ∧ loadV (dumpV v) = v) then
    .error .valueError
  else if ¬ ks.length = depth then .error .typeError
  else
    let row := (ks.map kRepr, dumpV v)
    .ok
      { table :=
          if st.table.any (fun p => p == row) then st.table
          else st.table ++ [row]
        store := storeAdd st.store ks v }

/-- `PersistentSetDict.remove`: after the depth check, the durable
`DELETE ... WHERE keys AND value_ = repr(value)` is committed, and only
then `self._store[tuple(keys)].remove(value)` runs, which raises
`KeyError` when the key tuple (or the member) is absent from the cache.
The result pairs the object's state after the call with the exception it
raises, if any — the durable delete survives the raise. -/
def psdRemove [DecidableEq K] [DecidableEq V] [DecidableEq S]
    (depth : ℕ) (kRepr : K → List Char) (vRepr : V → S)
    (st : PSDState K V S) (ks : List K) (v : V) :
    PSDState K V S × Option PyErr :=
  if ¬ ks.length = depth then (st, some .typeError)
  else
    let table := st.table.filter fun p =>
      ¬ (p.1 = ks.map kRepr ∧ p.2 = vRepr v)
    match st.store.find? (fun p => p.1 == ks) with
    | none => ({ st with table := table }, some .keyError)
    | some p =>
      if p.2.any (fun x => x == v) then
        ({ table := table
           store := st.store.map fun q =>
             if q.1 = ks then (q.1, q.2.filter fun x => ¬ x = v) else q },
         none)
      else ({ st with table := table }, some .keyError)

end Persist

namespace DumpCall

open TagDatabase Render

/-- The parameters `TagDatabase.get_tags` accepts (its `def` line in
`src/stream_tagger/tags.py`, `self` aside). -/
def getTagsParamNames : List String :=
  ["guild_id", "start", "end", "author_id", "limit", "show_hidden", "order"]

/-- The keyword arguments `Tagging.dump_tags` passes in
`self.tags.get_tags(guild_id, start, end, author_id, limit=limit,
min_votes=min_stars)`. -/
def dumpTagsKwargNames : List String := ["limit", "min_votes"]

/-- Python call binding: every keyword argument must name a parameter of
the callee, else the call raises `TypeError`. -/
def kwargsBind (params kwargs : List String) : Bool :=
  kwargs.all (· ∈ params)

/-- `Tagging.dump_tags` from `src/stream_tagger/tag_command.py`: choose
the fetch `limit` from the `fetch_limit` setting, call
`self.tags.get_tags(guild_id, start, end, author_id, limit=limit,
min_votes=min_stars)` — whose keyword binding is checked here, the callee
having no `min_votes` parameter — and render the result.  The `.ok`
branch is what the call would compute were the keyword accepted. -/
def dump_tags (table : Table) (guild_id : ℤ)
    (stream_url : Option (List Char)) (start end_ : ℤ) (style : String)
    (author_id : Option ℤ) (url_is_perm : Bool) (offset : ℤ)
    (min_stars : ℤ) (fetchLimitOff : Bool) :
    Except PyErr (Option (List (List Char))) :=
  let limit : ℕ := if fetchLimitOff then 1000000 else 1000
  if kwargsBind getTagsParamNames dumpTagsKwargNames then
    dumpRender stream_url url_is_perm offset start end_ style
      (get_tags table guild_id start end_ author_id limit)
  else .error .typeError

end DumpCall

namespace TagDatabase

/-- The vote count of the row with the given `msg_id`, when present. -/
def findVotes (t : Table) (msg_id : ℤ) : Option ℤ :=
  (t.find? fun r => r.msg_id == msg_id).map Row.votes

/-- Run one `increment_vote` call (it never raises, so the error case of
the `Except` is vacuous). -/
def runVote (t : Table) (msg_id d : ℤ) : Table :=
  match increment_vote t msg_id d with
  | .ok t2 => t2
  | .error _ => t

/-- A sequence of `increment_vote` calls with the given deltas, applied
left to right. -/
def applyVotes (t : Table) (msg_id : ℤ) (ds : List ℤ) : Table :=
  ds.foldl (fun acc d => runVote acc msg_id d) t

instance (o : SqlOrder) : IsTotal Row (tsLE o) where
  total a b := by cases o <;> exact Int.le_total _ _ |>.imp id id |>.symm.imp id id

instance (o : SqlOrder) : IsTrans Row (tsLE o) where
  trans a b c hab hbc := by cases o <;> exact le_trans (by assumption) (by assumption)

end TagDatabase

open TagDatabase Render Persist DumpCall

/-- A concrete one-row table used by the counterexamples and witnesses. -/
def tableOne : Table := [⟨1, 1, 100, ['a'], 0, 9, false, 0⟩]

/-- A concrete three-row table (one row hidden, one from another guild)
used by the C1 witness. -/
def tableThree : Table :=
  [⟨1, 1, 200, ['y'], 5, 9, false, 0⟩,
   ⟨2, 1, 100, ['x'], 0, 9, true, 0⟩,
   ⟨3, 2, 150, ['z'], 0, 9, false, 0⟩]

/-- A map that fixes every element of a list leaves it unchanged. -/
theorem listMap_fix {α : Type} (l : List α) (f : α → α)
    (hf : ∀ a ∈ l, f a = a) : l.map f = l := by
  induction l with
  | nil => rfl
  | cons a l ih =>
    exact by simp [hf a (by simp), ih fun b hb => hf b (by simp [hb])]

/-- C9: when `author_id` is `0`, `get_tags` applies no author filter at
all — `if author_id:` treats `0` like `None` — so the result is identical
to the `author_id=None` query. -/
theorem get_tags_author_zero (t : Table) (guild_id start end_ : ℤ)
    (limit : ℕ) (show_hidden : Bool) (order : SqlOrder) :
    get_tags t guild_id start end_ (some 0) limit show_hidden order =
      get_tags t guild_id start end_ none limit show_hidden order := rfl

/-- C2: `Tagging.dump_tags` passes the keyword argument `min_votes` to
`TagDatabase.get_tags`, which has no such parameter, so every call raises
`TypeError` before any tag is fetched or rendered: the vote-thresholding
the spec describes never happens. -/
theorem dump_tags_always_typeError (table : Table) (guild_id : ℤ)
    (stream_url : Option (List Char)) (start end_ : ℤ) (style : String)
    (author_id : Option ℤ) (url_is_perm : Bool) (offset min_stars : ℤ)
    (fetchLimitOff : Bool) :
    dump_tags table guild_id stream_url start end_ style author_id
      url_is_perm offset min_stars fetchLimitOff = .error .typeError := rfl

/-- C3 counterexample: on a store not containing `msg_id = 2`, each of
`update_text`, `update_time`, `increment_vote` and `remove` returns
normally (no NotFound-style error is signaled) and leaves the store
unchanged. -/
theorem mutations_missing_id_no_error :
    update_text tableOne 2 ['x'] 0 = .ok tableOne ∧
    update_time tableOne 2 7 = .ok tableOne ∧
    increment_vote tableOne 2 1 = .ok tableOne ∧
    TagDatabase.remove tableOne 2 = .ok tableOne := by
  refine ⟨?_, ?_, ?_, ?_⟩ <;> rfl

/-- C3 amended: for every `message_id` absent from the store, each of the
four mutations is a *silent* no-op — it completes without signaling any
error and leaves the store's contents unchanged (the SQL `UPDATE`/`DELETE`
simply matches zero rows). -/
theorem mutations_missing_id_noop (t : Table) (msg_id : ℤ)
    (text : List Char) (h time add : ℤ)
    (habs : contains t msg_id = false) :
    update_text t msg_id text h = .ok t ∧
    update_time t msg_id time = .ok t ∧
    increment_vote t msg_id add = .ok t ∧
    TagDatabase.remove t msg_id = .ok t := by
  have hne : ∀ r ∈ t, ¬ r.msg_id = msg_id := by
    intro r hr heq
    have hc : contains t msg_id = true := by
      simp only [contains, List.any_eq_true]
      exact ⟨r, hr, by simp [heq]⟩
    rw [habs] at hc
    exact Bool.false_ne_true hc
  refine ⟨?_, ?_, ?_, ?_⟩
  · simp only [update_text, Except.ok.injEq]
    exact listMap_fix t _ fun r hr => by simp [hne r hr]
  · simp only [update_time, Except.ok.injEq]
    exact listMap_fix t _ fun r hr => by simp [hne r hr]
  · simp only [increment_vote, Except.ok.injEq]
    exact listMap_fix t _ fun r hr => by simp [hne r hr]
  · simp only [TagDatabase.remove, Except.ok.injEq]
    exact List.filter_eq_self.mpr fun r hr => by simp [hne r hr]

/-- C6: on both write paths of the Cached Store —
`PersistentDict.__setitem__` and `PersistentSetDict.add` — the write
raises `ValueError` exactly when the round-trip of the value through the
configured `dump_v`/`load_v` pair (or of a key through `repr` /
`literal_eval`) is not the identity, and in that case nothing is
persisted (the error is returned before any state change); when the
round-trip holds, `__setitem__` persists the entry durably and in the
cache (and `add` does so too once the arity check passes), so a
violation is detected at write time and can never be deferred to read
time. -/
theorem cached_store_write_roundtrip {K V S : Type} [DecidableEq K]
    [DecidableEq V] [DecidableEq S] (dumpV : V → S) (loadV : S → V)
    (kRepr : K → List Char) (kEval : List Char → K) (st : PDState K V S)
    (k : K) (v : V) (depth : ℕ) (sst : PSDState K V S) (ks : List K) :
    (setItem dumpV loadV kRepr kEval st k v = .error .valueError ↔
      ¬ (kEval (kRepr k) = k ∧ loadV (dumpV v) = v)) ∧
    (kEval (kRepr k) = k ∧ loadV (dumpV v) = v →
      setItem dumpV loadV kRepr kEval st k v = .ok
        { table := insertOrReplace st.table (kRepr k) (dumpV v)
          store := dictSet st.store k v }) ∧
    (psdAdd depth dumpV loadV kRepr kEval sst ks v = .error .valueError ↔
      ¬ ((∀ x ∈ ks, kEval (kRepr x) = x) ∧ loadV (dumpV v) = v)) ∧
    ((∀ x ∈ ks, kEval (kRepr x) = x) → loadV (dumpV v) = v →
      ks.length = depth →
      psdAdd depth dumpV loadV kRepr kEval sst ks v = .ok
        { table :=
            if sst.table.any (fun p => p == (ks.map kRepr, dumpV v)) then
              sst.table
            else sst.table ++ [(ks.map kRepr, dumpV v)]
          store := storeAdd sst.store ks v }) := by
  refine ⟨?_, ?_, ?_, ?_⟩
  · by_cases hC : kEval (kRepr k) = k ∧ loadV (dumpV v) = v
    · simp only [setItem, if_neg (not_not_intro hC)]
      exact ⟨fun habs => Except.noConfusion habs, fun hnC => absurd hC hnC⟩
    · simp only [setItem, if_pos hC]
      exact ⟨fun _ => hC, fun _ => trivial⟩
  · intro hrt
    simp only [setItem, if_neg (not_not_intro hrt)]
  · by_cases hC : (∀ x ∈ ks, kEval (kRepr x) = x) ∧ loadV (dumpV v) = v
    · refine ⟨fun habs => ?_, fun hnC => absurd hC hnC⟩
      simp only [psdAdd, if_neg (not_not_intro hC)] at habs
      split at habs
      · exact Except.noConfusion habs fun h => PyErr.noConfusion h
      · exact Except.noConfusion habs
    · simp only [psdAdd, if_pos hC]
      exact ⟨fun _ => hC, fun _ => trivial⟩
  · intro hks hv hlen
    have hC : (∀ x ∈ ks, kEval (kRepr x) = x) ∧ loadV (dumpV v) = v :=
      ⟨hks, hv⟩
    simp only [psdAdd, if_neg (not_not_intro hC), if_neg (not_not_intro hlen)]

/-- C10: `PersistentDict.__delitem__` never raises — for every key,
present or absent, the durable `DELETE` is issued and the call returns
normally with the cache's matching entry removed (a missing cache entry
is silently ignored) — hence delete is idempotent; in contrast the
set-valued `PersistentSetDict.remove` raises `KeyError` when the key
tuple is absent from the cache. -/
theorem persistentDict_delete_total {K V S : Type} [DecidableEq K]
    [DecidableEq V] [DecidableEq S] (kRepr : K → List Char)
    (st : PDState K V S) (k : K) :
    (delItem kRepr st k = .ok
      { table := st.table.filter fun p => ¬ p.1 = kRepr k
        store := st.store.filter fun p => ¬ p.1 = k }) ∧
    (delItem (V := V) kRepr
      { table := st.table.filter fun p => ¬ p.1 = kRepr k
        store := st.store.filter fun p => ¬ p.1 = k } k = .ok
      { table := st.table.filter fun p => ¬ p.1 = kRepr k
        store := st.store.filter fun p => ¬ p.1 = k }) ∧
    (∀ (depth : ℕ) (vRepr : V → S) (sst : PSDState K V S) (ks : List K)
      (v : V), sst.store.find? (fun p => p.1 == ks) = none →
      ks.length = depth →
      (psdRemove depth kRepr vRepr sst ks v).2 = some .keyError) := by
  have hidem : ∀ (α : Type) (p : α → Bool) (l : List α),
      (l.filter p).filter p = l.filter p := fun α p l =>
    List.filter_eq_self.mpr fun a ha => (List.mem_filter.mp ha).2
  refine ⟨?_, ?_, ?_⟩
  · by_cases h : st.store.any (fun p => p.1 == k) = true
    · simp only [delItem, dictDel, if_pos h]
    · simp only [delItem, dictDel, if_neg h]
      have hself : st.store.filter (fun p => decide (¬ p.1 = k)) = st.store :=
        List.filter_eq_self.mpr fun p hp => decide_eq_true fun hpk =>
          h (List.any_eq_true.mpr ⟨p, hp, by simp [hpk]⟩)
      rw [hself]
  · have hno : ((st.store.filter fun p => decide (¬ p.1 = k)).any
        fun p => p.1 == k) ≠ true := by
      intro habs
      obtain ⟨p, hp, hpk⟩ := List.any_eq_true.mp habs
      have := (List.mem_filter.mp hp).2
      simp only [decide_eq_true_eq] at this
      exact this (by simpa using hpk)
    simp only [delItem, dictDel, if_neg hno, Except.ok.injEq, PDState.mk.injEq]
    exact ⟨hidem _ _ _, trivial⟩
  · intro depth vRepr sst ks v hfind hlen
    unfold psdRemove
    rw [if_neg (not_not_intro hlen)]
    simp only [hfind]

/-- `runVote` is the pointwise vote bump of `increment_vote`'s SQL `UPDATE`. -/
theorem runVote_eq (t : Table) (msg_id d : ℤ) :
    runVote t msg_id d = t.map fun r =>
      if r.msg_id = msg_id then { r with votes := r.votes + d } else r := rfl

/-- One `increment_vote` call adds its delta to the addressed tag's vote
count and to nothing else. -/
theorem findVotes_runVote (t : Table) (msg_id d : ℤ) :
    findVotes (runVote t msg_id d) msg_id =
      (findVotes t msg_id).map (· + d) := by
  rw [runVote_eq]
  unfold findVotes
  induction t with
  | nil => rfl
  | cons r rest ih =>
    rw [List.map_cons]
    by_cases h : r.msg_id = msg_id
    · rw [if_pos h]
      rw [List.find?_cons_of_pos _ (by simp [h]),
        List.find?_cons_of_pos _ (by simp [h])]
      rfl
    · rw [if_neg h]
      rw [List.find?_cons_of_neg _ (by simp [h]),
        List.find?_cons_of_neg _ (by simp [h])]
      exact ih

/-- C7: applying `increment_vote` with delta `+1` `N` times and with
delta `-1` `M` times, in any interleaving, to a tag whose vote count is
`votes_0` leaves its votes at `votes_0 + N - M`; since votes live in `ℤ`
the count may go negative. -/
theorem increment_vote_additive (t : Table) (msg_id votes_0 : ℤ)
    (ds : List ℤ) (N M : ℕ) (hmem : findVotes t msg_id = some votes_0)
    (hds : ∀ d ∈ ds, d = 1 ∨ d = -1) (hN : ds.count 1 = N)
    (hM : ds.count (-1) = M) :
    findVotes (applyVotes t msg_id ds) msg_id =
      some (votes_0 + N - M) := by
  subst hN hM
  induction ds generalizing t votes_0 with
  | nil => simpa [applyVotes] using hmem
  | cons d ds ih =>
    have hstep : findVotes (runVote t msg_id d) msg_id = some (votes_0 + d) := by
      rw [findVotes_runVote, hmem]
      rfl
    have happ : applyVotes t msg_id (d :: ds) =
        applyVotes (runVote t msg_id d) msg_id ds := rfl
    rw [happ, ih (runVote t msg_id d) (votes_0 + d) hstep
      (fun x hx => hds x (by simp [hx]))]
    rcases hds d (by simp) with h1 | h1 <;>
      · subst h1
        simp [List.count_cons]
        omega

/-- C7 witness: one `+1` and two `-1` deltas on the tag with id `1` and
initial votes `0` leave the votes at `0 + 1 - 2 = -1`, a negative count. -/
theorem increment_vote_additive_witness :
    findVotes tableOne 1 = some 0 ∧
    (∀ d ∈ [(1 : ℤ), -1, -1], d = 1 ∨ d = -1) ∧
    ([(1 : ℤ), -1, -1].count 1 = 1) ∧
    ([(1 : ℤ), -1, -1].count (-1) = 2) ∧
    findVotes (applyVotes tableOne 1 [1, -1, -1]) 1 = some (0 + 1 - 2) :=
  ⟨by decide, by decide, by decide, by decide,
    increment_vote_additive tableOne 1 0 [1, -1, -1] 1 2 (by decide)
      (by decide) (by decide) (by decide)⟩

/-- What a row passing the author-branch SQL filter satisfies. -/
theorem rowMatchA_props (guild_id start end_ author : ℤ) (show_hidden : Bool)
    (r : Row) (h : rowMatchA guild_id start end_ author show_hidden r = true) :
    r.guild = guild_id ∧ start ≤ r.timestamp ∧ r.timestamp ≤ end_ ∧
      (r.hidden = true → show_hidden = true) := by
  simp only [rowMatchA, Bool.and_eq_true, Bool.or_eq_true, beq_iff_eq,
    decide_eq_true_eq] at h
  obtain ⟨⟨⟨hg, hs, he⟩, _⟩, hh⟩ := h
  refine ⟨hg, hs, he, fun hhid => ?_⟩
  rcases hh with h1 | h2
  · rw [hhid] at h1
    exact absurd h1 (by simp)
  · rw [hhid] at h2
    exact h2.symm

/-- What a row passing the no-author SQL filter satisfies. -/
theorem rowMatch_props (guild_id start end_ : ℤ) (show_hidden : Bool)
    (r : Row) (h : rowMatch guild_id start end_ show_hidden r = true) :
    r.guild = guild_id ∧ start ≤ r.timestamp ∧ r.timestamp ≤ end_ ∧
      (r.hidden = true → show_hidden = true) := by
  simp only [rowMatch, Bool.and_eq_true, Bool.or_eq_true, beq_iff_eq,
    decide_eq_true_eq] at h
  obtain ⟨⟨hg, hs, he⟩, hh⟩ := h
  refine ⟨hg, hs, he, fun hhid => ?_⟩
  rcases hh with h1 | h2
  · rw [hhid] at h1
    exact absurd h1 (by simp)
  · rw [hhid] at h2
    exact h2.symm

/-- C1: for every guild, inclusive integer bounds `start ≤ end`, limit,
hidden flag and order, `get_tags` returns only tags whose timestamp lies
in `[start, end]`, each the projection of a stored row of that guild that
is not hidden unless `show_hidden` is set; the result has at most `limit`
entries and is sorted by timestamp, ascending for `ASC` and descending
for `DESC`. -/
theorem get_tags_query_contract (t : Table) (guild_id start end_ : ℤ)
    (author_id : Option ℤ) (limit : ℕ) (show_hidden : Bool)
    (order : SqlOrder) (hse : start ≤ end_) :
    let res := get_tags t guild_id start end_ author_id limit show_hidden order
    (∀ tg ∈ res, start ≤ tg.ts ∧ tg.ts ≤ end_) ∧
    (∀ tg ∈ res, ∃ r ∈ t, Row.toTag r = tg ∧ r.guild = guild_id ∧
      (r.hidden = true → show_hidden = true)) ∧
    res.length ≤ limit ∧
    (order = .ASC → res.Sorted fun a b => a.ts ≤ b.ts) ∧
    (order = .DESC → res.Sorted fun a b => b.ts ≤ a.ts) := by
  intro res
  obtain ⟨P, hP, hres⟩ : ∃ P : Row → Bool,
      (∀ r, P r = true → r.guild = guild_id ∧ start ≤ r.timestamp ∧
        r.timestamp ≤ end_ ∧ (r.hidden = true → show_hidden = true)) ∧
      res = (((t.filter P).insertionSort (tsLE order)).take limit).map
        Row.toTag := by
    by_cases ha : authorTruthy author_id
    · exact ⟨rowMatchA guild_id start end_ (author_id.getD 0) show_hidden,
        fun r => rowMatchA_props guild_id start end_ (author_id.getD 0)
          show_hidden r,
        by unfold res; unfold get_tags; rw [if_pos ha]⟩
    · exact ⟨rowMatch guild_id start end_ show_hidden,
        fun r => rowMatch_props guild_id start end_ show_hidden r,
        by unfold res; unfold get_tags; rw [if_neg ha]⟩
  have hsrc : ∀ tg ∈ res, ∃ r ∈ t, P r = true ∧ Row.toTag r = tg := by
    intro tg htg
    rw [hres] at htg
    obtain ⟨r, hr, heq⟩ := List.mem_map.mp htg
    have hr2 : r ∈ (t.filter P).insertionSort (tsLE order) :=
      (List.take_sublist _ _).subset hr
    have hr3 : r ∈ t.filter P := (List.mem_insertionSort _).mp hr2
    obtain ⟨hrt, hrP⟩ := List.mem_filter.mp hr3
    exact ⟨r, hrt, hrP, heq⟩
  refine ⟨?_, ?_, ?_, ?_, ?_⟩
  · intro tg htg
    obtain ⟨r, _, hrP, heq⟩ := hsrc tg htg
    obtain ⟨_, hs, he, _⟩ := hP r hrP
    rw [← heq]
    exact ⟨hs, he⟩
  · intro tg htg
    obtain ⟨r, hrt, hrP, heq⟩ := hsrc tg htg
    obtain ⟨hg, _, _, hh⟩ := hP r hrP
    exact ⟨r, hrt, heq, hg, hh⟩
  · rw [hres, List.length_map, List.length_take]
    exact min_le_left _ _
  · intro ho
    subst ho
    rw [hres]
    refine List.Pairwise.map _ (fun a b hab => hab) ?_
    exact ((List.sorted_insertionSort (tsLE .ASC) (t.filter P)).sublist
      (List.take_sublist _ _))
  · intro ho
    subst ho
    rw [hres]
    refine List.Pairwise.map _ (fun a b hab => hab) ?_
    exact ((List.sorted_insertionSort (tsLE .DESC) (t.filter P)).sublist
      (List.take_sublist _ _))

/-- C1 witness: the query contract applied to the concrete table
`tableThree` with window `[0, 300]`, limit `10`, hidden tags excluded and
ascending order. -/
theorem get_tags_query_contract_witness :
    (0 : ℤ) ≤ 300 ∧
    (let res := get_tags tableThree 1 0 300 none 10 false .ASC
     (∀ tg ∈ res, (0 : ℤ) ≤ tg.ts ∧ tg.ts ≤ 300) ∧
     (∀ tg ∈ res, ∃ r ∈ tableThree, Row.toTag r = tg ∧ r.guild = 1 ∧
       (r.hidden = true → false = true)) ∧
     res.length ≤ 10 ∧
     (SqlOrder.ASC = .ASC → res.Sorted fun a b => a.ts ≤ b.ts) ∧
     (SqlOrder.ASC = .DESC → res.Sorted fun a b => b.ts ≤ a.ts)) :=
  ⟨by decide,
    get_tags_query_contract tableThree 1 0 300 none 10 false .ASC (by decide)⟩

/-- C8 counterexample: on a one-tag list the `info` style does *not*
produce empty output — the rendered line list is not empty (it carries
the header line appended before the style dispatch). -/
theorem dump_info_not_empty :
    ¬ (dumpRender none false 0 0 100 "info"
        [⟨50, ['a'], 0, 1, 0⟩] = .ok (some [])) ∧
    (∃ l, dumpRender none false 0 0 100 "info"
        [⟨50, ['a'], 0, 1, 0⟩] = .ok (some [l])) := by
  have hres : dumpRender none false 0 0 100 "info" [⟨50, ['a'], 0, 1, 0⟩] =
      .ok (some [headerText none 0 1
        ((List.length [(⟨50, ['a'], 0, 1, 0⟩ : Tag_t)] : ℚ) /
          (((100 : ℤ) : ℚ) - ((0 : ℤ) : ℚ)) * 60)]) := by
    rw [dumpRender]
    rw [if_neg (by norm_num), if_neg (by norm_num)]
    rfl
  rw [hres]
  exact ⟨by simp, ⟨_, rfl⟩⟩

/-- C8 amended: for every non-empty tag list (and a non-degenerate
window, without which the rate computation divides by zero), the `info`
style renders exactly one line — the header — and no per-tag lines. -/
theorem dump_info_only_header (stream_url : Option (List Char))
    (url_is_perm : Bool) (offset start end_ : ℤ) (tags : List Tag_t)
    (h1 : tags ≠ []) (h2 : ((end_ : ℚ)) - ((start : ℚ)) ≠ 0) :
    dumpRender stream_url url_is_perm offset start end_ "info" tags =
      .ok (some [headerText stream_url start tags.length
        ((tags.length : ℚ) / (((end_ : ℤ) : ℚ) - ((start : ℤ) : ℚ)) * 60)]) := by
  rw [dumpRender]
  rw [if_neg (by simpa using fun h => h1 (List.length_eq_zero.mp h)),
    if_neg h2]
  rfl

/-- C8 witness: the amended header-only theorem applied to a concrete
one-tag list over the window `[0, 100]`. -/
theorem dump_info_only_header_witness :
    ([(⟨50, ['a'], 0, 1, 0⟩ : Tag_t)] ≠ []) ∧
    (((100 : ℤ) : ℚ) - ((0 : ℤ) : ℚ) ≠ 0) ∧
    dumpRender none false 0 0 100 "info" [⟨50, ['a'], 0, 1, 0⟩] =
      .ok (some [headerText none 0 ([(⟨50, ['a'], 0, 1, 0⟩ : Tag_t)]).length
        ((([(⟨50, ['a'], 0, 1, 0⟩ : Tag_t)]).length : ℚ) /
          (((100 : ℤ) : ℚ) - ((0 : ℤ) : ℚ)) * 60)]) :=
  ⟨by simp, by norm_num,
    dump_info_only_header none false 0 0 100 [⟨50, ['a'], 0, 1, 0⟩]
      (by simp) (by norm_num)⟩

/-- `natLog2F fuel n` is a correct floor of `log2 n` when the fuel
suffices. -/
theorem natLog2F_spec (fuel : ℕ) : ∀ n, 1 ≤ n → n ≤ fuel →
    2 ^ natLog2F fuel n ≤ n ∧ n < 2 ^ (natLog2F fuel n + 1) := by
  induction fuel with
  | zero => intro n h1 h2; omega
  | succ fuel ih =>
    intro n h1 h2
    rw [natLog2F]
    by_cases hn : n ≤ 1
    · rw [if_pos hn]
      have : n = 1 := by omega
      subst this
      norm_num
    · rw [if_neg hn]
      obtain ⟨hlo, hhi⟩ := ih (n / 2) (by omega) (by omega)
      have e1 : 2 ^ (natLog2F fuel (n / 2) + 1) =
          2 * 2 ^ natLog2F fuel (n / 2) := by ring
      have e2 : 2 ^ (natLog2F fuel (n / 2) + 1 + 1) =
          2 * 2 ^ (natLog2F fuel (n / 2) + 1) := by ring
      omega

/-- The integer characterization of `roundLog2 k` as the rounding of
`log2 k`: writing `m` for `roundLog2 k`, `2^(2m) ≤ 2·k² < 2^(2m+2)` (so
`2^(m-1/2) ≤ k < 2^(m+1/2)`). -/
theorem roundLog2_char (k : ℕ) (hk : 1 ≤ k) :
    2 ^ (2 * roundLog2 k) ≤ 2 * k ^ 2 ∧
      k ^ 2 < 2 ^ (2 * roundLog2 k + 1) := by
  have hpos : 1 ≤ 2 * k ^ 2 := by nlinarith
  obtain ⟨h1, h2⟩ := natLog2F_spec (2 * k ^ 2) (2 * k ^ 2) hpos le_rfl
  rw [roundLog2]
  set L := natLog2F (2 * k ^ 2) (2 * k ^ 2) with hL
  rcases Nat.even_or_odd L with ⟨m, hm⟩ | ⟨m, hm⟩
  · have hdiv : L / 2 = m := by omega
    rw [hdiv]
    have e1 : 2 ^ L = 2 ^ (2 * m) := by rw [hm]; ring_nf
    have e2 : 2 ^ (L + 1) = 2 * 2 ^ (2 * m) := by rw [hm]; ring
    have e3 : 2 ^ (2 * m + 1) = 2 * 2 ^ (2 * m) := by ring
    omega
  · have hdiv : L / 2 = m := by omega
    rw [hdiv]
    have e1 : 2 ^ L = 2 * 2 ^ (2 * m) := by rw [hm]; ring
    have e2 : 2 ^ (L + 1) = 2 * (2 * 2 ^ (2 * m)) := by rw [hm]; ring
    have e3 : 2 ^ (2 * m + 1) = 2 * 2 ^ (2 * m) := by ring
    omega

/-- The executable `roundLog2` agrees with the mathematical
`round (log2 k)` for every `k` at least `1`. -/
theorem roundLog2_eq_round_logb (k : ℕ) (hk : 1 ≤ k) :
    round (Real.logb 2 (k : ℝ)) = (roundLog2 k : ℤ) := by
  set m := roundLog2 k with hm
  obtain ⟨h1, h2⟩ := roundLog2_char k hk
  have hk0 : (0:ℝ) < (k:ℝ) := by exact_mod_cast Nat.lt_of_lt_of_le Nat.zero_lt_one hk
  have hupper : Real.logb 2 (k:ℝ) < (m:ℝ) + 1/2 := by
    rw [Real.logb_lt_iff_lt_rpow one_lt_two hk0]
    have hsq : ((2:ℝ) ^ ((m:ℝ) + 1/2)) ^ (2:ℕ) = ((2:ℝ)) ^ (2*m+1 : ℕ) := by
      rw [← Real.rpow_natCast ((2:ℝ) ^ ((m:ℝ) + 1/2)) 2,
          ← Real.rpow_mul (by norm_num : (0:ℝ) ≤ 2),
          ← Real.rpow_natCast (2:ℝ) (2*m+1)]
      congr 1
      push_cast
      ring
    have hklt : ((k:ℝ)) ^ (2:ℕ) < ((2:ℝ)) ^ (2*m+1 : ℕ) := by exact_mod_cast h2
    have h2pos : (0:ℝ) ≤ (2:ℝ) ^ ((m:ℝ) + 1/2) := Real.rpow_nonneg (by norm_num) _
    exact lt_of_pow_lt_pow_left₀ 2 h2pos (by rw [hsq]; exact hklt)
  have hlower : (m:ℝ) - 1/2 ≤ Real.logb 2 (k:ℝ) := by
    rw [Real.le_logb_iff_rpow_le one_lt_two hk0]
    have hsq : ((2:ℝ) ^ ((m:ℝ) - 1/2)) ^ (2:ℕ) * 2 = ((2:ℝ)) ^ (2*m : ℕ) := by
      rw [← Real.rpow_natCast ((2:ℝ) ^ ((m:ℝ) - 1/2)) 2,
          ← Real.rpow_mul (by norm_num : (0:ℝ) ≤ 2),
          ← Real.rpow_natCast (2:ℝ) (2*m)]
      rw [show ((m:ℝ) - 1/2) * ((2:ℕ):ℝ) = ((2*m : ℕ):ℝ) - 1 by push_cast; ring]
      rw [Real.rpow_sub (by norm_num : (0:ℝ) < 2)]
      norm_num
    have hle : ((2:ℝ)) ^ (2*m : ℕ) ≤ 2 * ((k:ℝ)) ^ (2:ℕ) := by exact_mod_cast h1
    have hsq2 : ((2:ℝ) ^ ((m:ℝ) - 1/2)) ^ (2:ℕ) ≤ ((k:ℝ)) ^ (2:ℕ) := by nlinarith
    exact le_of_pow_le_pow_left₀ (by norm_num) (le_of_lt hk0) hsq2
  rw [round_eq, Int.floor_eq_iff]
  constructor
  · push_cast
    linarith
  · push_cast
    linarith

/-- C4 counterexample: with mean vote count `avg = 0` and a tag vote
count `v = -1` (possible, since votes may go negative), the argument of
`math.log` is `round(-1/1) + 1 = 0`, so the star computation *fails* with
a math domain error instead of flooring the result at 0 stars. -/
theorem adjusted_stars_neg_vote_fails :
    adjusted_stars 0 (-1) = .error .mathDomainError := by
  rw [adjusted_stars]
  rw [if_neg (by norm_num)]
  have hq : (((-1 : ℤ) : ℚ)) / ((0 : ℚ) + 1) = -1 := by norm_num
  have hround : pyRound ((((-1 : ℤ) : ℚ)) / ((0 : ℚ) + 1)) = -1 := by
    rw [hq, pyRound]
    norm_num
  rw [if_pos (by rw [hround]; norm_num)]

/-- C4 amended: whenever `round(v / (avg+1)) + 1` is positive, the
displayed star count is exactly `round(log2(round(v / (avg+1)) + 1))`;
but when that argument of `log2` is not positive — which negative vote
counts can produce — the computation raises a math domain error rather
than flooring the result at 0 stars (and `avg = -1` raises a division
error before that). -/
theorem adjusted_stars_formula (avg : ℚ) (v : ℤ) (hden : avg + 1 ≠ 0) :
    (0 < pyRound ((v : ℚ) / (avg + 1)) + 1 →
      adjusted_stars avg v = .ok (round (Real.logb 2
        ((pyRound ((v : ℚ) / (avg + 1)) + 1 : ℤ) : ℝ)))) ∧
    (pyRound ((v : ℚ) / (avg + 1)) + 1 ≤ 0 →
      adjusted_stars avg v = .error .mathDomainError) := by
  constructor
  · intro hk
    rw [adjusted_stars]
    rw [if_neg hden, if_neg (not_le.mpr hk)]
    have h1 : 1 ≤ (pyRound ((v : ℚ) / (avg + 1)) + 1).toNat := by omega
    have hcast : (((pyRound ((v : ℚ) / (avg + 1)) + 1).toNat : ℕ) : ℝ) =
        ((pyRound ((v : ℚ) / (avg + 1)) + 1 : ℤ) : ℝ) := by
      rw [← Int.cast_natCast, Int.toNat_of_nonneg (by omega)]
    rw [show ((pyRound ((v : ℚ) / (avg + 1)) + 1 : ℤ) : ℝ) =
        (((pyRound ((v : ℚ) / (avg + 1)) + 1).toNat : ℕ) : ℝ) from hcast.symm]
    rw [roundLog2_eq_round_logb _ h1]
  · intro hk
    rw [adjusted_stars]
    rw [if_neg hden, if_pos hk]

/-- C4 witness: the formula theorem at `avg = 0`, `v = 4`:
`round(4/1) + 1 = 5` is positive, so five votes at average zero display
`round(log2 5) = 2` stars. -/
theorem adjusted_stars_formula_witness :
    ((0 : ℚ) + 1 ≠ 0) ∧
    ((0 < pyRound (((4 : ℤ) : ℚ) / ((0 : ℚ) + 1)) + 1 →
      adjusted_stars 0 4 = .ok (round (Real.logb 2
        ((pyRound (((4 : ℤ) : ℚ) / ((0 : ℚ) + 1)) + 1 : ℤ) : ℝ)))) ∧
    (pyRound (((4 : ℤ) : ℚ) / ((0 : ℚ) + 1)) + 1 ≤ 0 →
      adjusted_stars 0 4 = .error .mathDomainError)) :=
  ⟨by norm_num, adjusted_stars_formula 0 4 (by norm_num)⟩

/-- C5: on four tags at strictly increasing timestamps with hierarchy
levels `[0,1,1,0]`, the `alternative` tree rendering produces four lines
in which the third tag (level 1, successor level 0) carries the closing
mark `└` while the second tag (level 1, successor level 1) carries the
sibling mark `├` — two distinct marks — per the nine-branch rule set with
the virtual predecessor at the first tag's level and the virtual
successor at level `-1`.  (The star hypotheses say the vote counts make
the star compression succeed for each tag.) -/
theorem tree_closing_mark (su : Option (List Char)) (perm : Bool)
    (offset start t0 t1 t2 t3 : ℤ) (x0 x1 x2 x3 : List Char)
    (v0 v1 v2 v3 m0 m1 m2 m3 s0 s1 s2 s3 : ℤ)
    (hts : t0 < t1 ∧ t1 < t2 ∧ t2 < t3)
    (hs0 : adjusted_stars (avgVotes [⟨t0, x0, v0, m0, 0⟩, ⟨t1, x1, v1, m1, 1⟩,
      ⟨t2, x2, v2, m2, 1⟩, ⟨t3, x3, v3, m3, 0⟩]) v0 = .ok s0)
    (hs1 : adjusted_stars (avgVotes [⟨t0, x0, v0, m0, 0⟩, ⟨t1, x1, v1, m1, 1⟩,
      ⟨t2, x2, v2, m2, 1⟩, ⟨t3, x3, v3, m3, 0⟩]) v1 = .ok s1)
    (hs2 : adjusted_stars (avgVotes [⟨t0, x0, v0, m0, 0⟩, ⟨t1, x1, v1, m1, 1⟩,
      ⟨t2, x2, v2, m2, 1⟩, ⟨t3, x3, v3, m3, 0⟩]) v2 = .ok s2)
    (hs3 : adjusted_stars (avgVotes [⟨t0, x0, v0, m0, 0⟩, ⟨t1, x1, v1, m1, 1⟩,
      ⟨t2, x2, v2, m2, 1⟩, ⟨t3, x3, v3, m3, 0⟩]) v3 = .ok s3) :
    ∃ l0 b1 b2 l3,
      renderAlt "alternative" su perm offset start
        [⟨t0, x0, v0, m0, 0⟩, ⟨t1, x1, v1, m1, 1⟩,
         ⟨t2, x2, v2, m2, 1⟩, ⟨t3, x3, v3, m3, 0⟩] =
        .ok [l0, '├' :: ' ' :: b1, '└' :: ' ' :: b2, l3] ∧
      ('├' : Char) ≠ '└' := by
  refine ⟨altDecorate 0 0 1 (altBody "alternative" su perm (t0 + offset - start) x0 s0),
    altBody "alternative" su perm (t1 + offset - start) x1 s1,
    altBody "alternative" su perm (t2 + offset - start) x2 s2,
    altDecorate 1 0 (-1) (altBody "alternative" su perm (t3 + offset - start) x3 s3),
    ?_, by decide⟩
  rw [renderAlt]
  simp only [altLines, hs0, hs1, hs2, hs3]
  rfl

/-- C5 witness: the tree theorem applied to four concrete tags at
timestamps `10 < 20 < 30 < 40`, all with zero votes (so each tag shows
`round(log2 1) = 0` stars). -/
theorem tree_closing_mark_witness :
    ((10 : ℤ) < 20 ∧ (20 : ℤ) < 30 ∧ (30 : ℤ) < 40) ∧
    adjusted_stars (avgVotes [⟨10, ['a'], 0, 1, 0⟩, ⟨20, ['a'], 0, 2, 1⟩,
      ⟨30, ['a'], 0, 3, 1⟩, ⟨40, ['a'], 0, 4, 0⟩]) 0 = .ok 0 ∧
    (∃ l0 b1 b2 l3,
      renderAlt "alternative" none false 0 0
        [⟨10, ['a'], 0, 1, 0⟩, ⟨20, ['a'], 0, 2, 1⟩,
         ⟨30, ['a'], 0, 3, 1⟩, ⟨40, ['a'], 0, 4, 0⟩] =
        .ok [l0, '├' :: ' ' :: b1, '└' :: ' ' :: b2, l3] ∧
      ('├' : Char) ≠ '└') := by
  have hstar : adjusted_stars (avgVotes [⟨10, ['a'], 0, 1, 0⟩,
      ⟨20, ['a'], 0, 2, 1⟩, ⟨30, ['a'], 0, 3, 1⟩, ⟨40, ['a'], 0, 4, 0⟩]) 0 =
      .ok 0 := by
    norm_num [avgVotes, adjusted_stars, pyRound, roundLog2, natLog2F]
  exact ⟨by decide, hstar,
    tree_closing_mark none false 0 0 10 20 30 40 ['a'] ['a'] ['a'] ['a']
      0 0 0 0 1 2 3 4 0 0 0 0 (by decide) hstar hstar hstar hstar⟩

/-- C3 witness: the amended no-op theorem applied to the concrete store
`tableOne` and the absent id `2`. -/
theorem mutations_missing_id_noop_witness :
    contains tableOne 2 = false ∧
    (update_text tableOne 2 ['x'] 0 = .ok tableOne ∧
      update_time tableOne 2 7 = .ok tableOne ∧
      increment_vote tableOne 2 1 = .ok tableOne ∧
      TagDatabase.remove tableOne 2 = .ok tableOne) :=
  ⟨by decide, mutations_missing_id_noop tableOne 2 ['x'] 0 7 1 (by decide)⟩
